import Mathlib

/-!
Verification development for the CoreOS update_engine repository.

Part A embeds the post-install finalizer script (`coreos-postinst`) as a
function from an abstract run environment to the list of externally visible
effects it performs together with its exit code.  The script runs under
`set -e`, so every failing command aborts the run with a non-zero exit code.

Part B embeds the Download Stage of the update pipeline.  The stage's own
implementation (`download_action.cc`) is not part of the sources here - only
its unit test is - so the stage is modelled from the specification
(sections 4.3, 4.4 and 5 of the spec), keeping it consistent with the
observable behaviour the in-repo unit test demands.
-/

/-- Slot identity: the two A/B partition slots. -/
inductive Slot where
  | A
  | B
deriving DecidableEq

/-- Lower-case slot name, as produced by the script's `${SLOT,,}`. -/
def slotLower : Slot → String
  | Slot.A => "a"
  | Slot.B => "b"

/-- Upper-case slot name, the script's `${SLOT}`. -/
def slotName : Slot → String
  | Slot.A => "A"
  | Slot.B => "B"

/-- The `case "${INSTALL_LABEL}"` statement of coreos-postinst: `ROOT-A` and
`USR-A` select slot A, `ROOT-B` and `USR-B` select slot B, everything else is
a fatal error (modelled as `none`). -/
def slotOfLabel (label : String) : Option Slot :=
  if label = "ROOT-A" then some Slot.A
  else if label = "USR-A" then some Slot.A
  else if label = "ROOT-B" then some Slot.B
  else if label = "USR-B" then some Slot.B
  else none

/-- Externally visible effects performed by coreos-postinst, in program
order.  `cgptAdd s t` records `cgpt add -S<s> -T<t>`; `cgptShow` and
`stderrMsg` are diagnostics, not mutations. -/
inductive Effect where
  | mountEsp
  | copyLegacyKernel (dest : String)
  | copyLegacyConfig (dest : String)
  | copyKernel (dest : String)
  | oemHook (slot : String)
  | workaround
  | cgptRepair
  | cgptAdd (successful tries : Nat)
  | cgptPrioritize
  | cgptShow
  | stderrMsg (msg : String)
deriving DecidableEq

/-- Abstract environment of one coreos-postinst run: the GPT label of the
target device, the `KERNEL=` argument, the kernel command line marker, and a
success flag for every command whose failure aborts the script via `set -e`. -/
structure PostinstEnv where
  installLabel : String
  installKernel : String
  crosLegacy : Bool
  espFound : Bool
  espMounted : Bool
  espMountOk : Bool
  espDirOk : Bool
  legacyCopyOk : Bool
  legacyHasBootKernelMarker : Bool
  kernelCopyOk : Bool
  oemHookPresent : Bool
  oemHookOk : Bool
  workaroundsOk : Bool
  cgptFound : Bool
  ldsoFound : Bool
  repairOk : Bool
  addOk : Bool
  prioritizeOk : Bool
  showOk : Bool
  releaseCatOk : Bool
deriving DecidableEq

/-- The legacy (`cros_legacy`) bootloader staging: `syslinux/vmlinuz.<SLOT>`,
`syslinux/root.<SLOT>.cfg`, `boot/grub/menu.lst`, and `syslinux/default.cfg`
when the existing one lacks the `boot_kernel` marker. -/
def legacyEffects (slot : Slot) (hasMarker : Bool) : List Effect :=
  [Effect.copyLegacyKernel ("syslinux/vmlinuz." ++ slotName slot),
   Effect.copyLegacyConfig ("syslinux/root." ++ slotName slot ++ ".cfg"),
   Effect.copyLegacyConfig "boot/grub/menu.lst"] ++
  (if hasMarker then [] else [Effect.copyLegacyConfig "syslinux/default.cfg"])

/-- Locating cgpt and ld.so, then `call_cgpt repair`, `call_cgpt add -S0 -T1`,
`call_cgpt prioritize`, `call_cgpt show`, then `cat .../release`.  Under
`set -e` the first failing command ends the run with exit code 1. -/
def toolSteps (env : PostinstEnv) : List Effect × Nat :=
  if env.cgptFound = false then
    ([Effect.stderrMsg "Failed to locate the cgpt binary"], 1)
  else if env.ldsoFound = false then
    ([Effect.stderrMsg "Failed to locate ld.so"], 1)
  else if env.repairOk = false then
    ([Effect.cgptRepair], 1)
  else if env.addOk = false then
    ([Effect.cgptRepair, Effect.cgptAdd 0 1], 1)
  else if env.prioritizeOk = false then
    ([Effect.cgptRepair, Effect.cgptAdd 0 1, Effect.cgptPrioritize], 1)
  else if env.showOk = false then
    ([Effect.cgptRepair, Effect.cgptAdd 0 1, Effect.cgptPrioritize,
      Effect.cgptShow], 1)
  else if env.releaseCatOk = false then
    ([Effect.cgptRepair, Effect.cgptAdd 0 1, Effect.cgptPrioritize,
      Effect.cgptShow], 1)
  else
    ([Effect.cgptRepair, Effect.cgptAdd 0 1, Effect.cgptPrioritize,
      Effect.cgptShow], 0)

/-- Kernel staging into the ESP: the legacy branch (gated on the
`cros_legacy` kernel command-line marker), or the modern copy to
`coreos/vmlinuz-<slot>` - performed only when `update_engine` did not
already handle the kernel, i.e. the `KERNEL=` argument was absent or empty -
or nothing at all.  The flag records whether the copies succeeded. -/
def kernelStagePart (env : PostinstEnv) (slot : Slot) : List Effect × Bool :=
  if env.crosLegacy then
    (legacyEffects slot env.legacyHasBootKernelMarker, env.legacyCopyOk)
  else if env.installKernel = "" then
    ([Effect.copyKernel ("coreos/vmlinuz-" ++ slotLower slot)],
     env.kernelCopyOk)
  else ([], true)

/-- The optional OEM hook invocation `oem-postinst <SLOT> <INSTALL_MNT>`. -/
def oemHookPart (env : PostinstEnv) (slot : Slot) : List Effect × Bool :=
  if env.oemHookPresent then
    ([Effect.oemHook (slotName slot)], env.oemHookOk)
  else ([], true)

/-- The part of the script that runs once the ESP is available: kernel
staging, the optional OEM hook, the one-off workaround sections, and finally
the GPT tool steps. -/
def afterEsp (env : PostinstEnv) (slot : Slot) : List Effect × Nat :=
  if (kernelStagePart env slot).2 = false then
    ((kernelStagePart env slot).1, 1)
  else if (oemHookPart env slot).2 = false then
    ((kernelStagePart env slot).1 ++ (oemHookPart env slot).1, 1)
  else if env.workaroundsOk = false then
    ((kernelStagePart env slot).1 ++ ((oemHookPart env slot).1 ++
      [Effect.workaround]), 1)
  else
    ((kernelStagePart env slot).1 ++ ((oemHookPart env slot).1 ++
      (Effect.workaround :: (toolSteps env).1)), (toolSteps env).2)

/-- One full run of coreos-postinst: derive the slot from the GPT label (fatal
diagnostic on an unknown label), find and mount the ESP, stage the kernel,
run hooks and workarounds, then perform the GPT attribute operations. -/
def runPostinst (env : PostinstEnv) : List Effect × Nat :=
  match slotOfLabel env.installLabel with
  | none => ([Effect.stderrMsg ("Unknown LABEL " ++ env.installLabel)], 1)
  | some slot =>
    if env.espFound = false then
      ([Effect.stderrMsg "Failed to find ESP partition!"], 1)
    else if env.espMounted then
      if env.espDirOk = false then
        ([Effect.stderrMsg "ESP partition mount point is not a directory!"], 1)
      else afterEsp env slot
    else if env.espMountOk = false then ([Effect.mountEsp], 1)
    else if env.espDirOk = false then
      ([Effect.mountEsp,
        Effect.stderrMsg "ESP partition mount point is not a directory!"], 1)
    else (Effect.mountEsp :: (afterEsp env slot).1, (afterEsp env slot).2)

/-- GPT mutations: the three cgpt operations that change partition state.
`cgpt show` only prints. -/
def isGptMutation : Effect → Bool
  | Effect.cgptRepair => true
  | Effect.cgptAdd _ _ => true
  | Effect.cgptPrioritize => true
  | _ => false

/-- Every effect that mutates system state; diagnostics (`cgpt show`,
stderr messages) are excluded. -/
def isMutation : Effect → Bool
  | Effect.cgptShow => false
  | Effect.stderrMsg _ => false
  | _ => true

/-- Kernel staging into the ESP under the modern canonical name. -/
def isKernelStage : Effect → Bool
  | Effect.copyKernel _ => true
  | _ => false

/-- The effects strictly after the first `cgptPrioritize` of a trace. -/
def afterPrioritizeEffects (t : List Effect) : List Effect :=
  (t.dropWhile (fun e => !(decide (e = Effect.cgptPrioritize)))).drop 1

/-- Install Plan: the immutable descriptor carried through the pipeline.
Field names follow the `InstallPlan` constructor used by the unit test:
`InstallPlan(is_full_update, url, payload_size, payload_hash, install_path)`.
Payload bytes and hashes are byte lists. -/
structure InstallPlan where
  is_full_update : Bool
  url : String
  payload_size : Nat
  payload_hash : List Nat
  install_path : String
deriving DecidableEq

/-- Modelled from the spec: the Omaha hash ("a stable cryptographic digest of
the byte stream", section 9).  The hash-calculator source is not part of this
repository's sources, so the digest is modelled abstractly as the injective
digest that returns the byte stream itself; every claim here only uses that
equal streams have equal digests and that plans are built from the digest of
the expected bytes. -/
def omahaHashOfBytes (bytes : List Nat) : List Nat := bytes

/-- Delegate callbacks of the Download Stage, in call order
(`DownloadActionDelegate` in the unit test). -/
inductive DelegateCall where
  | setDownloadStatus (active : Bool)
  | bytesReceived (received progress total : Nat)
deriving DecidableEq

/-- Pipeline stage exit codes used by the Download Stage. -/
inductive ActionExitCode where
  | success
  | downloadTransportError
  | downloadWriteError
  | downloadSizeMismatch
  | downloadHashMismatch
  | cancelled
deriving DecidableEq

/-- Structurally recursive worker for `chunksOf`; the fuel argument is an
upper bound on the list length, consumed once per produced chunk. -/
def chunksOfFuel (n : Nat) : Nat → List Nat → List (List Nat)
  | 0, _ => []
  | _, [] => []
  | fuel + 1, x :: xs => (x :: xs).take n :: chunksOfFuel n fuel ((x :: xs).drop n)

/-- Modelled from the spec: the Fetcher's chunking (section 4.3) - bytes are
delivered in chunks of at most `n` bytes (`CHUNK_MAX`, the engine-wide
constant `kMockHttpFetcherChunkSize` in the unit test); the last chunk may be
smaller. -/
def chunksOf (n : Nat) (l : List Nat) : List (List Nat) :=
  if n = 0 then [] else chunksOfFuel n l.length l

/-- Modelled from the spec: one chunk-processing loop of the Download Stage
(section 4.4 step 4).  For each chunk: (a) write it - the test writer fails
exactly on its `failWrite`-th write call, terminating the run; (b) feed the
hash; (c) report `bytes_received(chunk_size, cumulative, total)` where
`cumulative` counts from the resume offset (section 4.3 Resumption).
Returns the delegate calls emitted, the bytes persisted by the writer, and
whether every write succeeded. -/
def processChunks (offset total failWrite : Nat) :
    List (List Nat) → Nat → Nat → List DelegateCall × List Nat × Bool
  | [], _, _ => ([], [], true)
  | c :: rest, writeCount, receivedSoFar =>
    if writeCount + 1 = failWrite then ([], [], false)
    else
      (DelegateCall.bytesReceived c.length (offset + receivedSoFar + c.length)
         total ::
         (processChunks offset total failWrite rest (writeCount + 1)
           (receivedSoFar + c.length)).1,
       c ++ (processChunks offset total failWrite rest (writeCount + 1)
           (receivedSoFar + c.length)).2.1,
       (processChunks offset total failWrite rest (writeCount + 1)
           (receivedSoFar + c.length)).2.2)

/-- Modelled from the spec: one Download Stage run environment.  `data` is
the full payload the fetcher serves, `offset` the resume offset
(`set_offset`), `chunkMax` the fetcher chunk bound, `failWrite` the index of
the writer call forced to fail (0 = never), `openOk` whether the writer
opens, `transferSuccess` the fetcher's final `on_transfer_complete` flag, and
`stopAfter = some k` that `stop()` terminated the transfer after `k` chunks
had been delivered. -/
structure DownloadEnv where
  data : List Nat
  offset : Nat
  chunkMax : Nat
  failWrite : Nat
  openOk : Bool
  transferSuccess : Bool
  stopAfter : Option Nat
deriving DecidableEq

/-- Result of one Download Stage run: the delegate calls in order, the exit
code, the bytes the writer persisted, and the object placed into the output
pipe for the successor stage. -/
structure RunResult where
  calls : List DelegateCall
  code : ActionExitCode
  fileBytes : List Nat
  outputObject : Option InstallPlan
deriving DecidableEq

/-- The chunks actually delivered by the fetcher: all chunks of the data past
the resume offset, truncated when `stop()` terminated the transfer early. -/
def deliveredChunks (env : DownloadEnv) : List (List Nat) :=
  match env.stopAfter with
  | none => chunksOf env.chunkMax (env.data.drop env.offset)
  | some k => (chunksOf env.chunkMax (env.data.drop env.offset)).take k

/-- The chunk-processing phase of a run. -/
def chunkPhase (env : DownloadEnv) (plan : InstallPlan) :
    List DelegateCall × List Nat × Bool :=
  processChunks env.offset plan.payload_size env.failWrite
    (deliveredChunks env) 0 0

/-- Modelled from the spec: `set_download_status(true)` at start and
`set_download_status(false)` on every exit path bracket the run's other
delegate calls (section 4.4 steps 3 and 7). -/
def wrapCalls (inner : List DelegateCall) : List DelegateCall :=
  DelegateCall.setDownloadStatus true :: (inner ++
    [DelegateCall.setDownloadStatus false])

/-- Modelled from the spec: one Download Stage run (section 4.4, the missing
`download_action.cc`).  Open the writer (failure: `DownloadWriteError` with
no delegate calls, as in scenario S5); process the chunks (a write failure
gives `DownloadWriteError`); a stop-terminated transfer gives `Cancelled`;
then check cumulative size (counted from the resume offset) against
`payload_size`, then the digest against `payload_hash`; on success the input
plan is re-emitted unchanged as the output object. -/
def runDownload (env : DownloadEnv) (plan : InstallPlan) : RunResult :=
  if env.openOk = false then
    ⟨[], ActionExitCode.downloadWriteError, [], none⟩
  else if (chunkPhase env plan).2.2 = false then
    ⟨wrapCalls (chunkPhase env plan).1, ActionExitCode.downloadWriteError,
     (chunkPhase env plan).2.1, none⟩
  else
    match env.stopAfter with
    | some _ =>
      ⟨wrapCalls (chunkPhase env plan).1, ActionExitCode.cancelled,
       (chunkPhase env plan).2.1, none⟩
    | none =>
      if env.transferSuccess = false then
        ⟨wrapCalls (chunkPhase env plan).1,
         ActionExitCode.downloadTransportError,
         (chunkPhase env plan).2.1, none⟩
      else if env.offset + (chunkPhase env plan).2.1.length ≠
          plan.payload_size then
        ⟨wrapCalls (chunkPhase env plan).1,
         ActionExitCode.downloadSizeMismatch,
         (chunkPhase env plan).2.1, none⟩
      else if omahaHashOfBytes (chunkPhase env plan).2.1 ≠
          plan.payload_hash then
        ⟨wrapCalls (chunkPhase env plan).1,
         ActionExitCode.downloadHashMismatch,
         (chunkPhase env plan).2.1, none⟩
      else
        ⟨wrapCalls (chunkPhase env plan).1, ActionExitCode.success,
         (chunkPhase env plan).2.1, some plan⟩

/-- Pipeline lifecycle events delivered to the processor delegate. -/
inductive PipelineEvent where
  | stageComplete (code : ActionExitCode)
  | pipelineDone (code : ActionExitCode)
  | pipelineStopped
deriving DecidableEq

/-- Modelled from the spec: the pipeline's stop protocol (section 4.1) -
when `stop()` was requested the running stage is asked to abort and, upon its
completion, the pipeline emits `on_pipeline_stopped()` once and terminates
without starting further stages. -/
def runPipelineStopRequested (env : DownloadEnv) (plan : InstallPlan) :
    List PipelineEvent × RunResult :=
  ([PipelineEvent.stageComplete (runDownload env plan).code,
    PipelineEvent.pipelineStopped], runDownload env plan)

/-- Is a call `set_download_status b`? -/
def isSetStatus (b : Bool) : DelegateCall → Bool
  | DelegateCall.setDownloadStatus a => a == b
  | _ => false

/-- Is a call a `bytes_received` progress callback? -/
def isBytesReceived : DelegateCall → Bool
  | DelegateCall.bytesReceived _ _ _ => true
  | _ => false

/-- Is a pipeline event `on_pipeline_stopped`? -/
def isPipelineStopped : PipelineEvent → Bool
  | PipelineEvent.pipelineStopped => true
  | _ => false

/-- The `progress` arguments of the `bytes_received` calls of a trace, in
call order. -/
def progressList (calls : List DelegateCall) : List Nat :=
  calls.filterMap (fun c =>
    match c with
    | DelegateCall.bytesReceived _ p _ => some p
    | _ => none)

/-- A fully successful finalizer run environment: device labelled `ROOT-A`,
no `KERNEL=` argument, modern (non-legacy) system, ESP already mounted,
every external command succeeding. -/
def postinstAllOk : PostinstEnv :=
  { installLabel := "ROOT-A"
    installKernel := ""
    crosLegacy := false
    espFound := true
    espMounted := true
    espMountOk := true
    espDirOk := true
    legacyCopyOk := true
    legacyHasBootKernelMarker := true
    kernelCopyOk := true
    oemHookPresent := false
    oemHookOk := true
    workaroundsOk := true
    cgptFound := true
    ldsoFound := true
    repairOk := true
    addOk := true
    prioritizeOk := true
    showOk := true
    releaseCatOk := true }

/-- A non-legacy run in which update_engine already staged the kernel, i.e.
the finalizer was invoked with a `KERNEL=` argument. -/
def kernelHandledEnv : PostinstEnv :=
  { postinstAllOk with installKernel := "coreos/vmlinuz-a" }

/-- A run against a device with an unknown GPT partition label. -/
def unknownLabelEnv : PostinstEnv :=
  { postinstAllOk with installLabel := "OEM" }

/-- Scenario S1 of the spec as run by the unit test `SimpleTest`: payload
`"foo"` (bytes 102,111,111), fetcher resumed at offset 1, no failures. -/
def s1Env : DownloadEnv :=
  { data := [102, 111, 111]
    offset := 1
    chunkMax := 16
    failWrite := 0
    openOk := true
    transferSuccess := true
    stopAfter := none }

/-- The install plan the unit test builds for scenario S1: size is the full
payload size (3), hash is the digest of the bytes past the offset (`"oo"`). -/
def s1Plan : InstallPlan :=
  { is_full_update := false
    url := ""
    payload_size := 3
    payload_hash := omahaHashOfBytes [111, 111]
    install_path := "temp-file" }

/-- A run whose writer fails to open (spec scenario S5, `BadOutFileTest`). -/
def badOpenEnv : DownloadEnv :=
  { s1Env with openOk := false }

/-- A non-empty transfer (payload `"abcd"`, resumed at offset 1, chunk bound
2, so more than one chunk) whose very first write call is forced to fail. -/
def failFirstWriteEnv : DownloadEnv :=
  { data := [97, 98, 99, 100]
    offset := 1
    chunkMax := 2
    failWrite := 1
    openOk := true
    transferSuccess := true
    stopAfter := none }

/-- Plan used alongside `failFirstWriteEnv`. -/
def failFirstWritePlan : InstallPlan :=
  { is_full_update := false
    url := ""
    payload_size := 4
    payload_hash := omahaHashOfBytes [98, 99, 100]
    install_path := "temp-file" }

/-- Scenario S3 shape at small scale: five chunks, second write fails. -/
def failSecondWriteEnv : DownloadEnv :=
  { data := [48, 49, 50, 51, 52, 53, 54, 55, 56, 57]
    offset := 0
    chunkMax := 2
    failWrite := 2
    openOk := true
    transferSuccess := true
    stopAfter := none }

/-- Plan used alongside `failSecondWriteEnv`. -/
def failSecondWritePlan : InstallPlan :=
  { is_full_update := false
    url := ""
    payload_size := 10
    payload_hash := omahaHashOfBytes [48, 49, 50, 51, 52, 53, 54, 55, 56, 57]
    install_path := "temp-file" }

/-- Scenario S4 shape at small scale: payload of `1.5 * CHUNK_MAX` bytes
(chunk bound 4, six bytes), `stop()` requested right after `start()`, one
chunk delivered before the termination took effect. -/
def terminateEarlyEnv : DownloadEnv :=
  { data := [0, 0, 0, 0, 0, 0]
    offset := 0
    chunkMax := 4
    failWrite := 0
    openOk := true
    transferSuccess := true
    stopAfter := some 1 }

/-- The plan the terminate-early unit test feeds (size 0, empty hash). -/
def terminateEarlyPlan : InstallPlan :=
  { is_full_update := false
    url := ""
    payload_size := 0
    payload_hash := []
    install_path := "temp-file" }

/-- A failure-free run of the large-payload shape: data longer than one
chunk (chunk bound 2, four bytes), resumed at offset 1. -/
def largeOkEnv : DownloadEnv :=
  { data := [97, 98, 99, 100]
    offset := 1
    chunkMax := 2
    failWrite := 0
    openOk := true
    transferSuccess := true
    stopAfter := none }

theorem dropWhile_append_all {α : Type} {p : α → Bool} :
    ∀ (pre ts : List α), (∀ e ∈ pre, p e = true) →
      (pre ++ ts).dropWhile p = ts.dropWhile p := by
  intro pre ts h
  induction pre with
  | nil => rfl
  | cons x xs ih =>
    have hx : p x = true := h x (List.mem_cons_self x xs)
    simp only [List.cons_append, List.dropWhile_cons, hx, if_true]
    exact ih (fun e he => h e (List.mem_cons_of_mem x he))

theorem kernelStagePart_no_gpt (env : PostinstEnv) (slot : Slot) :
    (kernelStagePart env slot).1.filter isGptMutation = [] := by
  unfold kernelStagePart legacyEffects
  split
  · split <;> simp [isGptMutation]
  · split <;> simp [isGptMutation]

theorem kernelStagePart_no_prio (env : PostinstEnv) (slot : Slot) :
    Effect.cgptPrioritize ∉ (kernelStagePart env slot).1 := by
  unfold kernelStagePart legacyEffects
  split
  · split <;> simp
  · split <;> simp

theorem oemHookPart_no_gpt (env : PostinstEnv) (slot : Slot) :
    (oemHookPart env slot).1.filter isGptMutation = [] := by
  unfold oemHookPart
  split <;> simp [isGptMutation]

theorem oemHookPart_no_prio (env : PostinstEnv) (slot : Slot) :
    Effect.cgptPrioritize ∉ (oemHookPart env slot).1 := by
  unfold oemHookPart
  split <;> simp

theorem afterEsp_split (env : PostinstEnv) (slot : Slot) :
    ((afterEsp env slot).2 = 1 ∧
      (afterEsp env slot).1.filter isGptMutation = [])
    ∨ (∃ pre, afterEsp env slot = (pre ++ (toolSteps env).1, (toolSteps env).2)
        ∧ pre.filter isGptMutation = []
        ∧ Effect.cgptPrioritize ∉ pre) := by
  have hk := kernelStagePart_no_gpt env slot
  have hk' := kernelStagePart_no_prio env slot
  have ho := oemHookPart_no_gpt env slot
  have ho' := oemHookPart_no_prio env slot
  unfold afterEsp
  split
  · exact Or.inl ⟨rfl, hk⟩
  · split
    · exact Or.inl ⟨rfl, by simp [List.filter_append, hk, ho]⟩
    · split
      · refine Or.inl ⟨rfl, ?_⟩
        simp [List.filter_append, hk, ho, isGptMutation]
      · refine Or.inr ⟨(kernelStagePart env slot).1 ++
          ((oemHookPart env slot).1 ++ [Effect.workaround]), ?_, ?_, ?_⟩
        · simp
        · simp [List.filter_append, hk, ho, isGptMutation]
        · simp [hk', ho']

theorem runPostinst_split (env : PostinstEnv) :
    ((runPostinst env).2 = 1 ∧
      (runPostinst env).1.filter isGptMutation = [])
    ∨ (∃ pre, runPostinst env = (pre ++ (toolSteps env).1, (toolSteps env).2)
        ∧ pre.filter isGptMutation = []
        ∧ Effect.cgptPrioritize ∉ pre) := by
  cases hs : slotOfLabel env.installLabel with
  | none =>
    refine Or.inl ⟨?_, ?_⟩ <;> simp [runPostinst, hs, isGptMutation]
  | some slot =>
    by_cases h1 : env.espFound = false
    · refine Or.inl ⟨?_, ?_⟩ <;> simp [runPostinst, hs, h1, isGptMutation]
    · by_cases h2 : env.espMounted = true
      · by_cases h3 : env.espDirOk = false
        · refine Or.inl ⟨?_, ?_⟩ <;>
            simp [runPostinst, hs, h1, h2, h3, isGptMutation]
        · have hrw : runPostinst env = afterEsp env slot := by
            simp [runPostinst, hs, h1, h2, h3]
          rw [hrw]
          exact afterEsp_split env slot
      · by_cases h4 : env.espMountOk = false
        · refine Or.inl ⟨?_, ?_⟩ <;>
            simp [runPostinst, hs, h1, h2, h4, isGptMutation]
        · by_cases h3 : env.espDirOk = false
          · refine Or.inl ⟨?_, ?_⟩ <;>
              simp [runPostinst, hs, h1, h2, h3, h4, isGptMutation]
          · have hrw : runPostinst env =
                (Effect.mountEsp :: (afterEsp env slot).1,
                 (afterEsp env slot).2) := by
              simp [runPostinst, hs, h1, h2, h3, h4]
            rcases afterEsp_split env slot with ⟨ha2, ha1⟩ | ⟨pre, heq, hg, hp⟩
            · refine Or.inl ⟨?_, ?_⟩
              · rw [hrw]; exact ha2
              · rw [hrw]; simpa [isGptMutation] using ha1
            · refine Or.inr ⟨Effect.mountEsp :: pre, ?_, ?_, ?_⟩
              · rw [hrw, heq]; simp
              · simpa [isGptMutation] using hg
              · simp [hp]

theorem toolSteps_gpt_filter (env : PostinstEnv) :
    (toolSteps env).1.filter isGptMutation = []
    ∨ (toolSteps env).1.filter isGptMutation = [Effect.cgptRepair]
    ∨ (toolSteps env).1.filter isGptMutation
        = [Effect.cgptRepair, Effect.cgptAdd 0 1]
    ∨ (toolSteps env).1.filter isGptMutation
        = [Effect.cgptRepair, Effect.cgptAdd 0 1, Effect.cgptPrioritize] := by
  unfold toolSteps
  split_ifs <;> decide

theorem toolSteps_exit_zero (env : PostinstEnv)
    (h : (toolSteps env).2 = 0) :
    (toolSteps env).1.filter isGptMutation
      = [Effect.cgptRepair, Effect.cgptAdd 0 1, Effect.cgptPrioritize] := by
  unfold toolSteps at h ⊢
  split_ifs at h ⊢ <;> simp_all <;> decide

theorem toolSteps_early_fail (env : PostinstEnv)
    (h : env.repairOk = false ∨ env.addOk = false) :
    (toolSteps env).2 = 1 ∧ Effect.cgptPrioritize ∉ (toolSteps env).1 := by
  unfold toolSteps
  split_ifs <;> simp_all

theorem toolSteps_after_prio (env : PostinstEnv) :
    (afterPrioritizeEffects (toolSteps env).1).filter isMutation = [] := by
  unfold toolSteps
  split_ifs <;> decide

theorem afterPrioritizeEffects_append (pre ts : List Effect)
    (h : Effect.cgptPrioritize ∉ pre) :
    afterPrioritizeEffects (pre ++ ts) = afterPrioritizeEffects ts := by
  unfold afterPrioritizeEffects
  rw [dropWhile_append_all pre ts ?_]
  intro e he
  have hne : e ≠ Effect.cgptPrioritize := fun hh => h (hh ▸ he)
  simp [hne]

/-- C1: every finalizer run that reaches the GPT step issues the GPT tool
mutations in the fixed order `repair`, then `add -S0 -T1`, then
`prioritize` (the trace of GPT mutations is a non-empty ordered stage of
that sequence, and on exit code 0 it is the complete sequence); nothing
after `prioritize` in the trace is a mutation, so the priority raise is the
last mutation performed; and if `repair` or `add` fails the run exits
non-zero without `prioritize` ever having been issued. -/
theorem c1_gpt_step_order (env : PostinstEnv)
    (hreach : Effect.cgptRepair ∈ (runPostinst env).1) :
    ((runPostinst env).1.filter isGptMutation = [Effect.cgptRepair]
     ∨ (runPostinst env).1.filter isGptMutation
         = [Effect.cgptRepair, Effect.cgptAdd 0 1]
     ∨ (runPostinst env).1.filter isGptMutation
         = [Effect.cgptRepair, Effect.cgptAdd 0 1, Effect.cgptPrioritize])
    ∧ (afterPrioritizeEffects (runPostinst env).1).filter isMutation = []
    ∧ ((runPostinst env).2 = 0 →
        (runPostinst env).1.filter isGptMutation
          = [Effect.cgptRepair, Effect.cgptAdd 0 1, Effect.cgptPrioritize])
    ∧ ((env.repairOk = false ∨ env.addOk = false) →
        (runPostinst env).2 ≠ 0
          ∧ Effect.cgptPrioritize ∉ (runPostinst env).1) := by
  rcases runPostinst_split env with ⟨hexit, hfilter⟩ | ⟨pre, heq, hpre, hpreP⟩
  · exfalso
    have hmem : Effect.cgptRepair ∈ (runPostinst env).1.filter isGptMutation :=
      List.mem_filter.mpr ⟨hreach, by decide⟩
    rw [hfilter] at hmem
    exact absurd hmem (List.not_mem_nil _)
  · have h1 : (runPostinst env).1 = pre ++ (toolSteps env).1 := by rw [heq]
    have h2 : (runPostinst env).2 = (toolSteps env).2 := by rw [heq]
    refine ⟨?_, ?_, ?_, ?_⟩
    · rcases toolSteps_gpt_filter env with h | h | h | h
      · exfalso
        have hmem : Effect.cgptRepair ∈
            (runPostinst env).1.filter isGptMutation :=
          List.mem_filter.mpr ⟨hreach, by decide⟩
        rw [h1, List.filter_append, hpre, List.nil_append, h] at hmem
        exact absurd hmem (List.not_mem_nil _)
      · exact Or.inl (by rw [h1, List.filter_append, hpre, List.nil_append, h])
      · exact Or.inr (Or.inl
          (by rw [h1, List.filter_append, hpre, List.nil_append, h]))
      · exact Or.inr (Or.inr
          (by rw [h1, List.filter_append, hpre, List.nil_append, h]))
    · rw [h1, afterPrioritizeEffects_append pre _ hpreP]
      exact toolSteps_after_prio env
    · intro h0
      rw [h2] at h0
      rw [h1, List.filter_append, hpre, List.nil_append]
      exact toolSteps_exit_zero env h0
    · intro hfail
      obtain ⟨ht1, ht2⟩ := toolSteps_early_fail env hfail
      refine ⟨?_, ?_⟩
      · rw [h2, ht1]; decide
      · rw [h1]
        intro hmem
        rcases List.mem_append.mp hmem with h | h
        · exact hpreP h
        · exact ht2 h

/-- Witness for C1: the fully successful run on a `ROOT-A` device reaches
the GPT step and satisfies every conjunct. -/
theorem c1_gpt_step_order_witness :
    ((runPostinst postinstAllOk).1.filter isGptMutation = [Effect.cgptRepair]
     ∨ (runPostinst postinstAllOk).1.filter isGptMutation
         = [Effect.cgptRepair, Effect.cgptAdd 0 1]
     ∨ (runPostinst postinstAllOk).1.filter isGptMutation
         = [Effect.cgptRepair, Effect.cgptAdd 0 1, Effect.cgptPrioritize])
    ∧ (afterPrioritizeEffects (runPostinst postinstAllOk).1).filter isMutation
        = []
    ∧ ((runPostinst postinstAllOk).2 = 0 →
        (runPostinst postinstAllOk).1.filter isGptMutation
          = [Effect.cgptRepair, Effect.cgptAdd 0 1, Effect.cgptPrioritize])
    ∧ ((postinstAllOk.repairOk = false ∨ postinstAllOk.addOk = false) →
        (runPostinst postinstAllOk).2 ≠ 0
          ∧ Effect.cgptPrioritize ∉ (runPostinst postinstAllOk).1) :=
  c1_gpt_step_order postinstAllOk (by decide)

/-- C2: the finalizer derives slot identity A exactly for the GPT partition
labels `ROOT-A` and `USR-A`, slot identity B exactly for `ROOT-B` and
`USR-B`; for every other label the whole run consists of printing the
`Unknown LABEL` diagnostic to stderr and exiting with code 1, before any
other effect is performed. -/
theorem c2_slot_derivation (env : PostinstEnv) :
    (slotOfLabel env.installLabel = some Slot.A ↔
      (env.installLabel = "ROOT-A" ∨ env.installLabel = "USR-A"))
    ∧ (slotOfLabel env.installLabel = some Slot.B ↔
      (env.installLabel = "ROOT-B" ∨ env.installLabel = "USR-B"))
    ∧ (slotOfLabel env.installLabel = none →
        runPostinst env
          = ([Effect.stderrMsg ("Unknown LABEL " ++ env.installLabel)], 1)) := by
  refine ⟨?_, ?_, ?_⟩
  · by_cases h1 : env.installLabel = "ROOT-A"
    · simp [slotOfLabel, h1]
    · by_cases h2 : env.installLabel = "USR-A"
      · simp [slotOfLabel, h1, h2]
      · by_cases h3 : env.installLabel = "ROOT-B"
        · simp [slotOfLabel, h1, h2, h3]
        · by_cases h4 : env.installLabel = "USR-B"
          · simp [slotOfLabel, h1, h2, h3, h4]
          · simp [slotOfLabel, h1, h2, h3, h4]
  · by_cases h1 : env.installLabel = "ROOT-A"
    · simp [slotOfLabel, h1]
    · by_cases h2 : env.installLabel = "USR-A"
      · simp [slotOfLabel, h1, h2]
      · by_cases h3 : env.installLabel = "ROOT-B"
        · simp [slotOfLabel, h1, h2, h3]
        · by_cases h4 : env.installLabel = "USR-B"
          · simp [slotOfLabel, h1, h2, h3, h4]
          · simp [slotOfLabel, h1, h2, h3, h4]
  · intro h
    simp [runPostinst, h]

/-- Witness for C2, instantiated at a run whose device label is `OEM`: the
unknown label is rejected with the diagnostic alone. -/
theorem c2_slot_derivation_witness :
    (slotOfLabel unknownLabelEnv.installLabel = some Slot.A ↔
      (unknownLabelEnv.installLabel = "ROOT-A"
        ∨ unknownLabelEnv.installLabel = "USR-A"))
    ∧ (slotOfLabel unknownLabelEnv.installLabel = some Slot.B ↔
      (unknownLabelEnv.installLabel = "ROOT-B"
        ∨ unknownLabelEnv.installLabel = "USR-B"))
    ∧ (slotOfLabel unknownLabelEnv.installLabel = none →
        runPostinst unknownLabelEnv
          = ([Effect.stderrMsg
              ("Unknown LABEL " ++ unknownLabelEnv.installLabel)], 1)) :=
  c2_slot_derivation unknownLabelEnv

/-- Counterexample to C3 as stated: a non-legacy finalizer run that was
invoked with a `KERNEL=` argument (update_engine already handled the kernel)
completes successfully without staging any kernel image into the ESP. -/
theorem c3_counterexample :
    kernelHandledEnv.crosLegacy = false
    ∧ (runPostinst kernelHandledEnv).2 = 0
    ∧ (runPostinst kernelHandledEnv).1.filter isKernelStage = [] := by
  decide

/-- C3 (amended): on every finalizer run on a non-legacy system in which no
`KERNEL=` argument was supplied and the ESP was located and mounted, the
kernel image is staged into the ESP under the slot-specific canonical name -
`coreos/vmlinuz-a` for slot A, `coreos/vmlinuz-b` for slot B. -/
theorem c3_kernel_staging (env : PostinstEnv) (s : Slot)
    (hslot : slotOfLabel env.installLabel = some s)
    (hesp : env.espFound = true)
    (hdir : env.espDirOk = true)
    (hmnt : env.espMounted = true ∨ env.espMountOk = true)
    (hleg : env.crosLegacy = false)
    (hk : env.installKernel = "") :
    Effect.copyKernel ("coreos/vmlinuz-" ++ slotLower s) ∈ (runPostinst env).1
    ∧ "coreos/vmlinuz-" ++ slotLower Slot.A = "coreos/vmlinuz-a"
    ∧ "coreos/vmlinuz-" ++ slotLower Slot.B = "coreos/vmlinuz-b" := by
  have hstage : (kernelStagePart env s).1
      = [Effect.copyKernel ("coreos/vmlinuz-" ++ slotLower s)] := by
    simp [kernelStagePart, hleg, hk]
  have hmem : Effect.copyKernel ("coreos/vmlinuz-" ++ slotLower s)
      ∈ (afterEsp env s).1 := by
    unfold afterEsp
    split_ifs <;> simp [hstage]
  refine ⟨?_, rfl, rfl⟩
  have hespT : ¬(env.espFound = false) := by simp [hesp]
  have hdirT : ¬(env.espDirOk = false) := by simp [hdir]
  rcases hmnt with hm | hm
  · simpa [runPostinst, hslot, hespT, hm, hdirT] using hmem
  · by_cases hm2 : env.espMounted = true
    · simpa [runPostinst, hslot, hespT, hm2, hdirT] using hmem
    · have hmOk : ¬(env.espMountOk = false) := by simp [hm]
      simp [runPostinst, hslot, hespT, hm2, hmOk, hdirT]
      exact hmem

/-- Witness for C3 (amended): the fully successful non-legacy `ROOT-A` run
stages `coreos/vmlinuz-a`. -/
theorem c3_kernel_staging_witness :
    Effect.copyKernel ("coreos/vmlinuz-" ++ slotLower Slot.A)
      ∈ (runPostinst postinstAllOk).1
    ∧ "coreos/vmlinuz-" ++ slotLower Slot.A = "coreos/vmlinuz-a"
    ∧ "coreos/vmlinuz-" ++ slotLower Slot.B = "coreos/vmlinuz-b" :=
  c3_kernel_staging postinstAllOk Slot.A (by decide) (by decide) (by decide)
    (Or.inl (by decide)) (by decide) (by decide)

theorem chunksOfFuel_congr (n : Nat) (hn : n ≠ 0) :
    ∀ (f1 : Nat) (l : List Nat) (f2 : Nat), l.length ≤ f1 → l.length ≤ f2 →
      chunksOfFuel n f1 l = chunksOfFuel n f2 l := by
  intro f1
  induction f1 with
  | zero =>
    intro l f2 h1 h2
    have hl : l = [] := List.length_eq_zero.mp (Nat.le_zero.mp h1)
    subst hl
    cases f2 <;> rfl
  | succ f ih =>
    intro l f2 h1 h2
    cases l with
    | nil => cases f2 <;> rfl
    | cons x xs =>
      cases f2 with
      | zero => simp at h2
      | succ f2' =>
        have hd : ((x :: xs).drop n).length = (x :: xs).length - n :=
          List.length_drop n (x :: xs)
        simp only [chunksOfFuel]
        congr 1
        apply ih
        · rw [hd]; simp only [List.length_cons] at h1 ⊢; omega
        · rw [hd]; simp only [List.length_cons] at h2 ⊢; omega

theorem chunksOf_unfold (n : Nat) (l : List Nat) :
    chunksOf n l = if n = 0 ∨ l = [] then []
      else l.take n :: chunksOf n (l.drop n) := by
  by_cases hn : n = 0
  · simp [chunksOf, hn]
  · cases l with
    | nil => simp [chunksOf, hn, chunksOfFuel]
    | cons x xs =>
      have hcond : ¬(n = 0 ∨ x :: xs = []) := by simp [hn]
      rw [if_neg hcond]
      unfold chunksOf
      rw [if_neg hn, if_neg hn]
      show (x :: xs).take n :: chunksOfFuel n xs.length ((x :: xs).drop n)
        = (x :: xs).take n :: chunksOfFuel n ((x :: xs).drop n).length
            ((x :: xs).drop n)
      congr 1
      apply chunksOfFuel_congr n hn
      · rw [List.length_drop]; simp only [List.length_cons]; omega
      · exact Nat.le_refl _

theorem chunksOf_flatten (n : Nat) (hn : n ≠ 0) (l : List Nat) :
    (chunksOf n l).flatten = l := by
  have H : ∀ (N : Nat) (l : List Nat), l.length ≤ N →
      (chunksOf n l).flatten = l := by
    intro N
    induction N with
    | zero =>
      intro l hl
      have : l = [] := List.length_eq_zero.mp (Nat.le_zero.mp hl)
      subst this
      rw [chunksOf_unfold]
      simp
    | succ N ih =>
      intro l hl
      cases l with
      | nil => rw [chunksOf_unfold]; simp
      | cons x xs =>
        rw [chunksOf_unfold]
        have hcond : ¬(n = 0 ∨ x :: xs = []) := by simp [hn]
        rw [if_neg hcond, List.flatten_cons]
        rw [ih ((x :: xs).drop n) ?_]
        · exact List.take_append_drop n (x :: xs)
        · rw [List.length_drop]; simp only [List.length_cons] at hl ⊢; omega
  exact H l.length l (Nat.le_refl _)

theorem chunksOf_ne_nil (n : Nat) (l : List Nat) :
    ∀ c ∈ chunksOf n l, c ≠ [] := by
  have H : ∀ (N : Nat) (l : List Nat), l.length ≤ N →
      ∀ c ∈ chunksOf n l, c ≠ [] := by
    intro N
    induction N with
    | zero =>
      intro l hl c hc
      have : l = [] := List.length_eq_zero.mp (Nat.le_zero.mp hl)
      subst this
      rw [chunksOf_unfold] at hc
      simp at hc
    | succ N ih =>
      intro l hl c hc
      cases l with
      | nil => rw [chunksOf_unfold] at hc; simp at hc
      | cons x xs =>
        by_cases hn : n = 0
        · rw [chunksOf_unfold, if_pos (Or.inl hn)] at hc
          simp at hc
        · have hcond : ¬(n = 0 ∨ x :: xs = []) := by simp [hn]
          rw [chunksOf_unfold, if_neg hcond] at hc
          rcases List.mem_cons.mp hc with h | h
          · subst h
            cases n with
            | zero => exact absurd rfl hn
            | succ m => exact List.cons_ne_nil x (xs.take m)
          · refine ih ((x :: xs).drop n) ?_ c h
            rw [List.length_drop]
            simp only [List.length_cons] at hl ⊢
            omega
  exact H l.length l (Nat.le_refl _)

theorem processChunks_nil (off tot fw w r : Nat) :
    processChunks off tot fw [] w r = ([], [], true) := rfl

theorem processChunks_cons (off tot fw : Nat) (c : List Nat)
    (rest : List (List Nat)) (w r : Nat) :
    processChunks off tot fw (c :: rest) w r
      = if w + 1 = fw then ([], [], false)
        else (DelegateCall.bytesReceived c.length (off + r + c.length) tot ::
                (processChunks off tot fw rest (w + 1) (r + c.length)).1,
              c ++ (processChunks off tot fw rest (w + 1) (r + c.length)).2.1,
              (processChunks off tot fw rest (w + 1) (r + c.length)).2.2) :=
  rfl

theorem processChunks_calls_bytes (off tot fw : Nat) :
    ∀ (cs : List (List Nat)) (w r : Nat),
      ∀ c ∈ (processChunks off tot fw cs w r).1, isBytesReceived c = true := by
  intro cs
  induction cs with
  | nil => intro w r c hc; rw [processChunks_nil] at hc; simp at hc
  | cons ch rest ih =>
    intro w r c hc
    rw [processChunks_cons] at hc
    by_cases hf : w + 1 = fw
    · rw [if_pos hf] at hc; simp at hc
    · rw [if_neg hf] at hc
      rcases List.mem_cons.mp hc with h | h
      · subst h; rfl
      · exact ih (w + 1) (r + ch.length) c h

theorem processChunks_noFail (off tot : Nat) :
    ∀ (cs : List (List Nat)) (w r : Nat),
      (processChunks off tot 0 cs w r).2.2 = true
      ∧ (processChunks off tot 0 cs w r).2.1 = cs.flatten := by
  intro cs
  induction cs with
  | nil => intro w r; exact ⟨rfl, rfl⟩
  | cons c rest ih =>
    intro w r
    rw [processChunks_cons, if_neg (Nat.succ_ne_zero w)]
    refine ⟨(ih (w + 1) (r + c.length)).1, ?_⟩
    show c ++ (processChunks off tot 0 rest (w + 1) (r + c.length)).2.1
      = (c :: rest).flatten
    rw [(ih (w + 1) (r + c.length)).2, List.flatten_cons]

theorem progressList_cons_bytes (a p t : Nat) (l : List DelegateCall) :
    progressList (DelegateCall.bytesReceived a p t :: l)
      = p :: progressList l := by
  simp [progressList]

theorem progressList_cons_status (b : Bool) (l : List DelegateCall) :
    progressList (DelegateCall.setDownloadStatus b :: l) = progressList l := by
  simp [progressList]

theorem progressList_append (l1 l2 : List DelegateCall) :
    progressList (l1 ++ l2) = progressList l1 ++ progressList l2 := by
  simp [progressList]

theorem progressList_wrapCalls (l : List DelegateCall) :
    progressList (wrapCalls l) = progressList l := by
  unfold wrapCalls
  rw [progressList_cons_status, progressList_append]
  simp [progressList]

theorem processChunks_progress (off tot fw : Nat) :
    ∀ (cs : List (List Nat)) (w r : Nat), (∀ c ∈ cs, c ≠ []) →
      List.Chain' (· < ·) (progressList (processChunks off tot fw cs w r).1)
      ∧ ∀ p ∈ progressList (processChunks off tot fw cs w r).1,
          off + r < p := by
  intro cs
  induction cs with
  | nil =>
    intro w r _
    rw [processChunks_nil]
    exact ⟨List.chain'_nil, by intro p hp; simp [progressList] at hp⟩
  | cons c rest ih =>
    intro w r hne
    rw [processChunks_cons]
    by_cases hf : w + 1 = fw
    · rw [if_pos hf]
      exact ⟨List.chain'_nil, by intro p hp; simp [progressList] at hp⟩
    · rw [if_neg hf]
      have hcne : c ≠ [] := hne c (List.mem_cons_self _ _)
      have hclen : 0 < c.length := List.length_pos.mpr hcne
      obtain ⟨ihc, ihb⟩ := ih (w + 1) (r + c.length)
        (fun d hd => hne d (List.mem_cons_of_mem _ hd))
      show List.Chain' (· < ·) (progressList
          (DelegateCall.bytesReceived c.length (off + r + c.length) tot ::
            (processChunks off tot fw rest (w + 1) (r + c.length)).1))
        ∧ ∀ p ∈ progressList
            (DelegateCall.bytesReceived c.length (off + r + c.length) tot ::
              (processChunks off tot fw rest (w + 1) (r + c.length)).1),
            off + r < p
      rw [progressList_cons_bytes]
      constructor
      · rw [List.chain'_cons']
        refine ⟨?_, ihc⟩
        intro y hy
        have hmem : y ∈ progressList
            (processChunks off tot fw rest (w + 1) (r + c.length)).1 :=
          List.mem_of_mem_head? hy
        have := ihb y hmem
        omega
      · intro p hp
        rcases List.mem_cons.mp hp with h | h
        · subst h; omega
        · have := ihb p h; omega

theorem processChunks_fail (off tot fw : Nat) :
    ∀ (cs : List (List Nat)) (w r : Nat), w < fw → fw ≤ w + cs.length →
      (processChunks off tot fw cs w r).2.2 = false
      ∧ (processChunks off tot fw cs w r).1.countP isBytesReceived
          = fw - 1 - w := by
  intro cs
  induction cs with
  | nil =>
    intro w r h1 h2
    exfalso
    simp only [List.length_nil, Nat.add_zero] at h2
    omega
  | cons c rest ih =>
    intro w r h1 h2
    rw [processChunks_cons]
    by_cases hf : w + 1 = fw
    · rw [if_pos hf]
      refine ⟨rfl, ?_⟩
      show ([] : List DelegateCall).countP isBytesReceived = fw - 1 - w
      simp only [List.countP_nil]
      omega
    · rw [if_neg hf]
      have h1' : w + 1 < fw := by omega
      have h2' : fw ≤ (w + 1) + rest.length := by
        simp only [List.length_cons] at h2
        omega
      obtain ⟨ia, ib⟩ := ih (w + 1) (r + c.length) h1' h2'
      refine ⟨ia, ?_⟩
      show (DelegateCall.bytesReceived c.length (off + r + c.length) tot ::
        (processChunks off tot fw rest (w + 1) (r + c.length)).1).countP
          isBytesReceived = fw - 1 - w
      rw [List.countP_cons, ib]
      show fw - 1 - (w + 1) + (if true = true then 1 else 0) = fw - 1 - w
      simp only [if_true]
      omega

theorem isBytesReceived_not_status (c : DelegateCall) (b : Bool)
    (h : isBytesReceived c = true) : isSetStatus b c = false := by
  cases c with
  | setDownloadStatus a => simp [isBytesReceived] at h
  | bytesReceived x y z => rfl

theorem wrapCalls_bracket (l : List DelegateCall)
    (hl : ∀ c ∈ l, isBytesReceived c = true) :
    (wrapCalls l).countP (isSetStatus true) = 1
    ∧ (wrapCalls l).countP (isSetStatus false) = 1
    ∧ (wrapCalls l).head? = some (DelegateCall.setDownloadStatus true)
    ∧ (wrapCalls l).getLast? = some (DelegateCall.setDownloadStatus false) := by
  have hz : ∀ b, l.countP (isSetStatus b) = 0 := by
    intro b
    rw [List.countP_eq_zero]
    intro c hc
    simp [isBytesReceived_not_status c b (hl c hc)]
  refine ⟨?_, ?_, rfl, ?_⟩
  · unfold wrapCalls
    rw [List.countP_cons, List.countP_append, hz, List.countP_cons,
      List.countP_nil]
    simp [isSetStatus]
  · unfold wrapCalls
    rw [List.countP_cons, List.countP_append, hz, List.countP_cons,
      List.countP_nil]
    simp [isSetStatus]
  · unfold wrapCalls
    rw [← List.cons_append]
    exact List.getLast?_concat ..

theorem wrapCalls_countP_bytes (l : List DelegateCall) :
    (wrapCalls l).countP isBytesReceived = l.countP isBytesReceived := by
  unfold wrapCalls
  rw [List.countP_cons, List.countP_append, List.countP_cons, List.countP_nil]
  simp [isBytesReceived]

theorem runDownload_notOpen (env : DownloadEnv) (plan : InstallPlan)
    (h : env.openOk = false) :
    runDownload env plan
      = ⟨[], ActionExitCode.downloadWriteError, [], none⟩ := by
  unfold runDownload
  rw [if_pos h]

theorem runDownload_calls (env : DownloadEnv) (plan : InstallPlan)
    (h : env.openOk = true) :
    (runDownload env plan).calls = wrapCalls (chunkPhase env plan).1 := by
  unfold runDownload
  rw [if_neg (by simp [h])]
  split
  · rfl
  · split
    · rfl
    · split
      · rfl
      · split
        · rfl
        · split
          · rfl
          · rfl

theorem runDownload_fileBytes (env : DownloadEnv) (plan : InstallPlan)
    (h : env.openOk = true) :
    (runDownload env plan).fileBytes = (chunkPhase env plan).2.1 := by
  unfold runDownload
  rw [if_neg (by simp [h])]
  split
  · rfl
  · split
    · rfl
    · split
      · rfl
      · split
        · rfl
        · split
          · rfl
          · rfl

theorem deliveredChunks_ne_nil (env : DownloadEnv) :
    ∀ c ∈ deliveredChunks env, c ≠ [] := by
  intro c hc
  unfold deliveredChunks at hc
  rcases h : env.stopAfter with _ | k
  · rw [h] at hc
    exact chunksOf_ne_nil _ _ c hc
  · rw [h] at hc
    exact chunksOf_ne_nil _ _ c (List.take_subset k _ hc)

theorem deliveredChunks_none (env : DownloadEnv) (h : env.stopAfter = none)
    (hc : env.chunkMax ≠ 0) (hd : env.data.drop env.offset ≠ []) :
    deliveredChunks env = (env.data.drop env.offset).take env.chunkMax ::
      chunksOf env.chunkMax ((env.data.drop env.offset).drop env.chunkMax)
    := by
  unfold deliveredChunks
  rw [h]
  rw [chunksOf_unfold, if_neg (by simp [hc, hd])]

/-- C4 (scenario S1, unit test `SimpleTest`): with the 3-byte payload
`"foo"` (bytes 102,111,111), the fetcher resumed at offset 1, and the
test's install plan (full payload size, hash of `"oo"`), the Download Stage
completes with `Success`, the output file contains exactly `"oo"` (the data
from the offset onward), and the file's digest matches the plan's hash. -/
theorem c4_s1_small_success :
    (runDownload s1Env s1Plan).code = ActionExitCode.success
    ∧ (runDownload s1Env s1Plan).fileBytes = [111, 111]
    ∧ omahaHashOfBytes (runDownload s1Env s1Plan).fileBytes
        = s1Plan.payload_hash := by
  decide

/-- C5: whenever a Download Stage run completes with `Success`, the object
placed into the output pipe for the successor stage is exactly the Install
Plan the stage received as input - the plan passes through unchanged. -/
theorem c5_plan_passthrough (env : DownloadEnv) (plan : InstallPlan)
    (h : (runDownload env plan).code = ActionExitCode.success) :
    (runDownload env plan).outputObject = some plan := by
  unfold runDownload at h ⊢
  by_cases h0 : env.openOk = false
  · rw [if_pos h0] at h
    simp at h
  · rw [if_neg h0] at h ⊢
    by_cases h1 : (chunkPhase env plan).2.2 = false
    · rw [if_pos h1] at h
      simp at h
    · rw [if_neg h1] at h ⊢
      rcases hs : env.stopAfter with _ | k
      · simp only [hs] at h ⊢
        by_cases h2 : env.transferSuccess = false
        · rw [if_pos h2] at h
          simp at h
        · rw [if_neg h2] at h ⊢
          by_cases h3 : env.offset + (chunkPhase env plan).2.1.length
              ≠ plan.payload_size
          · rw [if_pos h3] at h
            simp at h
          · rw [if_neg h3] at h ⊢
            by_cases h4 : omahaHashOfBytes (chunkPhase env plan).2.1
                ≠ plan.payload_hash
            · rw [if_pos h4] at h
              simp at h
            · rw [if_neg h4]
      · simp only [hs] at h
        simp at h

/-- Witness for C5 at the S1 run, whose code is `Success`. -/
theorem c5_plan_passthrough_witness :
    (runDownload s1Env s1Plan).outputObject = some s1Plan :=
  c5_plan_passthrough s1Env s1Plan (by decide)

/-- Counterexample to C6 as stated: a run whose writer fails to open exits
with `DownloadWriteError` - an error exit - yet `set_download_status(true)`
is never called (the writer is opened before the status callback, spec
section 4.4 steps 1-3 and scenario S5), so the "exactly once on success,
error, and cancellation alike" claim fails on this run. -/
theorem c6_counterexample :
    (runDownload badOpenEnv s1Plan).code = ActionExitCode.downloadWriteError
    ∧ (runDownload badOpenEnv s1Plan).calls.countP (isSetStatus true) = 0
    ∧ (runDownload badOpenEnv s1Plan).calls = [] := by
  decide

/-- C6 (amended): on every Download Stage run whose writer opens
successfully, `set_download_status(true)` is called exactly once and first,
`set_download_status(false)` exactly once and last - on success, error, and
cancellation alike - so the two status calls bracket every other delegate
callback of the run. -/
theorem c6_status_bracketing (env : DownloadEnv) (plan : InstallPlan)
    (h : env.openOk = true) :
    (runDownload env plan).calls.countP (isSetStatus true) = 1
    ∧ (runDownload env plan).calls.countP (isSetStatus false) = 1
    ∧ (runDownload env plan).calls.head?
        = some (DelegateCall.setDownloadStatus true)
    ∧ (runDownload env plan).calls.getLast?
        = some (DelegateCall.setDownloadStatus false) := by
  rw [runDownload_calls env plan h]
  exact wrapCalls_bracket _ (processChunks_calls_bytes _ _ _ _ 0 0)

/-- Witness for C6 (amended) at the S1 run. -/
theorem c6_status_bracketing_witness :
    (runDownload s1Env s1Plan).calls.countP (isSetStatus true) = 1
    ∧ (runDownload s1Env s1Plan).calls.countP (isSetStatus false) = 1
    ∧ (runDownload s1Env s1Plan).calls.head?
        = some (DelegateCall.setDownloadStatus true)
    ∧ (runDownload s1Env s1Plan).calls.getLast?
        = some (DelegateCall.setDownloadStatus false) :=
  c6_status_bracketing s1Env s1Plan (by decide)

/-- Counterexample to C7 as stated: a non-empty transfer (payload `"abcd"`
resumed at offset 1, more than one chunk long) whose first write call is
forced to fail receives no `bytes_received` callback at all - the write
(step 4a) precedes the progress report (step 4c), so neither the "at least
once for a non-empty transfer" part nor the `1 + CHUNK_MAX` part holds for
this run. -/
theorem c7_counterexample :
    failFirstWriteEnv.data.drop failFirstWriteEnv.offset ≠ []
    ∧ failFirstWriteEnv.offset = 1
    ∧ failFirstWriteEnv.chunkMax < failFirstWriteEnv.data.length
    ∧ (runDownload failFirstWriteEnv failFirstWritePlan).calls.countP
        isBytesReceived = 0 := by
  decide

/-- C7 (amended): in every Download Stage run the `progress` arguments of
successive `bytes_received` calls are strictly monotonically increasing; in
every run with no forced write failure and no early stop, a non-empty
transfer produces at least one `bytes_received` call, and a transfer of
more than `CHUNK_MAX` bytes resumed at offset 1 produces a call with
`progress = 1 + CHUNK_MAX`. -/
theorem c7_progress_reporting (env : DownloadEnv) (plan : InstallPlan) :
    List.Chain' (· < ·) (progressList (runDownload env plan).calls)
    ∧ (env.openOk = true → env.failWrite = 0 → env.stopAfter = none →
        env.chunkMax ≠ 0 → env.data.drop env.offset ≠ [] →
        1 ≤ (runDownload env plan).calls.countP isBytesReceived)
    ∧ (env.openOk = true → env.failWrite = 0 → env.stopAfter = none →
        env.chunkMax ≠ 0 → env.offset = 1 →
        env.chunkMax < env.data.length →
        (1 + env.chunkMax) ∈ progressList (runDownload env plan).calls) := by
  refine ⟨?_, ?_, ?_⟩
  · by_cases h : env.openOk = true
    · rw [runDownload_calls env plan h, progressList_wrapCalls]
      exact (processChunks_progress env.offset plan.payload_size
        env.failWrite (deliveredChunks env) 0 0
        (deliveredChunks_ne_nil env)).1
    · have h' : env.openOk = false := by
        cases hb : env.openOk
        · rfl
        · exact absurd hb h
      rw [runDownload_notOpen env plan h']
      exact List.chain'_nil
  · intro h1 h2 h3 h4 h5
    rw [runDownload_calls env plan h1, wrapCalls_countP_bytes]
    have hd := deliveredChunks_none env h3 h4 h5
    show 1 ≤ (processChunks env.offset plan.payload_size env.failWrite
      (deliveredChunks env) 0 0).1.countP isBytesReceived
    rw [hd, h2, processChunks_cons, if_neg (by omega : ¬(0 + 1 = 0))]
    show 1 ≤ (DelegateCall.bytesReceived _ _ _ ::
      (processChunks env.offset plan.payload_size 0 _ (0 + 1)
        (0 + _)).1).countP isBytesReceived
    rw [List.countP_cons]
    simp [isBytesReceived]
  · intro h1 h2 h3 h4 h5 h6
    rw [runDownload_calls env plan h1, progressList_wrapCalls]
    have hne : env.data.drop env.offset ≠ [] := by
      intro hnil
      have hlen := congrArg List.length hnil
      rw [List.length_drop] at hlen
      simp only [List.length_nil] at hlen
      omega
    have hd := deliveredChunks_none env h3 h4 hne
    show (1 + env.chunkMax) ∈ progressList (processChunks env.offset
      plan.payload_size env.failWrite (deliveredChunks env) 0 0).1
    rw [hd, h2, processChunks_cons, if_neg (by omega : ¬(0 + 1 = 0))]
    show (1 + env.chunkMax) ∈ progressList
      (DelegateCall.bytesReceived ((env.data.drop env.offset).take
          env.chunkMax).length
        (env.offset + 0 + ((env.data.drop env.offset).take
          env.chunkMax).length) plan.payload_size ::
        (processChunks env.offset plan.payload_size 0
          (chunksOf env.chunkMax ((env.data.drop env.offset).drop
            env.chunkMax)) (0 + 1)
          (0 + ((env.data.drop env.offset).take env.chunkMax).length)).1)
    rw [progressList_cons_bytes]
    have hclen : ((env.data.drop env.offset).take env.chunkMax).length
        = env.chunkMax := by
      rw [List.length_take, List.length_drop]
      omega
    refine List.mem_cons.mpr (Or.inl ?_)
    rw [hclen, h5]

/-- Witness for C7 (amended): the failure-free large-payload run. -/
theorem c7_progress_reporting_witness :
    List.Chain' (· < ·)
      (progressList (runDownload largeOkEnv failFirstWritePlan).calls)
    ∧ (largeOkEnv.openOk = true → largeOkEnv.failWrite = 0 →
        largeOkEnv.stopAfter = none → largeOkEnv.chunkMax ≠ 0 →
        largeOkEnv.data.drop largeOkEnv.offset ≠ [] →
        1 ≤ (runDownload largeOkEnv failFirstWritePlan).calls.countP
          isBytesReceived)
    ∧ (largeOkEnv.openOk = true → largeOkEnv.failWrite = 0 →
        largeOkEnv.stopAfter = none → largeOkEnv.chunkMax ≠ 0 →
        largeOkEnv.offset = 1 →
        largeOkEnv.chunkMax < largeOkEnv.data.length →
        (1 + largeOkEnv.chunkMax) ∈ progressList
          (runDownload largeOkEnv failFirstWritePlan).calls) :=
  c7_progress_reporting largeOkEnv failFirstWritePlan

/-- C8: if the writer's Nth write call is forced to fail (N at least 1, and
the transfer long enough that the Nth write happens), the Download Stage
completes with `DownloadWriteError`, exactly the N-1 preceding successful
writes produced `bytes_received` callbacks - none fire after the failing
write - and the run still closes with `set_download_status(false)`. -/
theorem c8_write_failure (env : DownloadEnv) (plan : InstallPlan)
    (h1 : env.openOk = true) (h2 : 1 ≤ env.failWrite)
    (h3 : env.failWrite ≤ (deliveredChunks env).length) :
    (runDownload env plan).code = ActionExitCode.downloadWriteError
    ∧ (runDownload env plan).calls.countP isBytesReceived
        = env.failWrite - 1
    ∧ (runDownload env plan).calls.getLast?
        = some (DelegateCall.setDownloadStatus false) := by
  obtain ⟨ia, ib⟩ := processChunks_fail env.offset plan.payload_size
    env.failWrite (deliveredChunks env) 0 0 (by omega) (by omega)
  have hok : (chunkPhase env plan).2.2 = false := ia
  refine ⟨?_, ?_, ?_⟩
  · unfold runDownload
    rw [if_neg (by simp [h1]), if_pos hok]
  · rw [runDownload_calls env plan h1, wrapCalls_countP_bytes]
    have hb : (chunkPhase env plan).1.countP isBytesReceived
        = env.failWrite - 1 - 0 := ib
    rw [hb]
    omega
  · rw [runDownload_calls env plan h1]
    unfold wrapCalls
    rw [← List.cons_append]
    exact List.getLast?_concat ..

/-- Witness for C8: ten bytes in five chunks, second write forced to fail:
`DownloadWriteError`, exactly one progress callback. -/
theorem c8_write_failure_witness :
    (runDownload failSecondWriteEnv failSecondWritePlan).code
      = ActionExitCode.downloadWriteError
    ∧ (runDownload failSecondWriteEnv failSecondWritePlan).calls.countP
        isBytesReceived = failSecondWriteEnv.failWrite - 1
    ∧ (runDownload failSecondWriteEnv failSecondWritePlan).calls.getLast?
        = some (DelegateCall.setDownloadStatus false) :=
  c8_write_failure failSecondWriteEnv failSecondWritePlan (by decide)
    (by decide) (by decide)

theorem take_one_cons {α : Type} (a : α) (l : List α) :
    (a :: l).take 1 = [a] := rfl

/-- C9 (scenario S4): when `stop()` is requested immediately after
`start()` during a transfer of `1.5 * CHUNK_MAX` bytes - so at most one
chunk was delivered before the termination took effect - the pipeline emits
`on_pipeline_stopped` exactly once, and the output file's size is either 0
or exactly `CHUNK_MAX`: chunks are never partially written. -/
theorem c9_terminate_early (env : DownloadEnv) (plan : InstallPlan) (k : Nat)
    (h1 : env.openOk = true) (h2 : env.failWrite = 0)
    (h3 : env.stopAfter = some k) (h4 : k ≤ 1)
    (h5 : env.offset = 0) (h6 : env.chunkMax ≠ 0)
    (h7 : env.data.length = env.chunkMax + env.chunkMax / 2) :
    (runPipelineStopRequested env plan).1.countP isPipelineStopped = 1
    ∧ ((runPipelineStopRequested env plan).2.fileBytes.length = 0
       ∨ (runPipelineStopRequested env plan).2.fileBytes.length
           = env.chunkMax) := by
  constructor
  · show ([PipelineEvent.stageComplete (runDownload env plan).code,
      PipelineEvent.pipelineStopped].countP isPipelineStopped) = 1
    rw [List.countP_cons, List.countP_cons, List.countP_nil]
    show 0 + (if isPipelineStopped PipelineEvent.pipelineStopped = true
        then 1 else 0)
      + (if isPipelineStopped
          (PipelineEvent.stageComplete (runDownload env plan).code) = true
        then 1 else 0) = 1
    simp [isPipelineStopped]
  · show (runDownload env plan).fileBytes.length = 0
      ∨ (runDownload env plan).fileBytes.length = env.chunkMax
    rw [runDownload_fileBytes env plan h1]
    have hfile : (chunkPhase env plan).2.1 = (deliveredChunks env).flatten
      := by
      show (processChunks env.offset plan.payload_size env.failWrite
        (deliveredChunks env) 0 0).2.1 = (deliveredChunks env).flatten
      rw [h2]
      exact (processChunks_noFail _ _ _ 0 0).2
    rw [hfile]
    have hdel : deliveredChunks env
        = (chunksOf env.chunkMax (env.data.drop env.offset)).take k := by
      unfold deliveredChunks
      rw [h3]
    rw [hdel, h5, List.drop_zero]
    interval_cases k
    · left
      simp
    · right
      have hne : env.data ≠ [] := by
        intro hnil
        rw [hnil] at h7
        simp only [List.length_nil] at h7
        omega
      rw [chunksOf_unfold, if_neg (by simp [h6, hne])]
      rw [take_one_cons, List.flatten_cons, List.flatten_nil,
        List.append_nil, List.length_take]
      omega

/-- Witness for C9 at the small terminate-early shape (chunk bound 4, six
bytes, one chunk delivered before the stop took effect). -/
theorem c9_terminate_early_witness :
    (runPipelineStopRequested terminateEarlyEnv terminateEarlyPlan).1.countP
        isPipelineStopped = 1
    ∧ ((runPipelineStopRequested terminateEarlyEnv
          terminateEarlyPlan).2.fileBytes.length = 0
       ∨ (runPipelineStopRequested terminateEarlyEnv
          terminateEarlyPlan).2.fileBytes.length
           = terminateEarlyEnv.chunkMax) :=
  c9_terminate_early terminateEarlyEnv terminateEarlyPlan 1 (by decide)
    (by decide) (by decide) (by decide) (by decide) (by decide) (by decide)

/-- C10: for a transfer of `n` bytes resumed at offset 1 with a
failure-free run and plan hash over the bytes past the offset, the stage
completes with `Success` exactly when the plan's `payload_size` is the full
pre-resume length `n`; with `payload_size = n - 1` (the bytes actually
received) it completes with `DownloadSizeMismatch` instead - the
end-of-transfer size check counts cumulative progress from the resume
offset. -/
theorem c10_resume_size_check (env : DownloadEnv) (plan : InstallPlan)
    (h1 : env.openOk = true) (h2 : env.failWrite = 0)
    (h3 : env.stopAfter = none) (h4 : env.transferSuccess = true)
    (h5 : env.chunkMax ≠ 0) (h6 : env.offset = 1) (h7 : env.data ≠ [])
    (h8 : plan.payload_hash = omahaHashOfBytes (env.data.drop 1)) :
    (plan.payload_size = env.data.length →
      (runDownload env plan).code = ActionExitCode.success)
    ∧ (plan.payload_size = env.data.length - 1 → 2 ≤ env.data.length →
      (runDownload env plan).code = ActionExitCode.downloadSizeMismatch)
    := by
  have hfile : (chunkPhase env plan).2.1 = env.data.drop 1 := by
    show (processChunks env.offset plan.payload_size env.failWrite
      (deliveredChunks env) 0 0).2.1 = env.data.drop 1
    rw [h2, (processChunks_noFail _ _ _ 0 0).2]
    simp only [deliveredChunks, h3]
    rw [h6]
    exact chunksOf_flatten env.chunkMax h5 _
  have hokc : ¬((chunkPhase env plan).2.2 = false) := by
    have : (chunkPhase env plan).2.2 = true := by
      show (processChunks env.offset plan.payload_size env.failWrite
        (deliveredChunks env) 0 0).2.2 = true
      rw [h2]
      exact (processChunks_noFail _ _ _ 0 0).1
    simp [this]
  have hlen : (chunkPhase env plan).2.1.length = env.data.length - 1 := by
    rw [hfile, List.length_drop]
  have hpos : 0 < env.data.length := List.length_pos.mpr h7
  constructor
  · intro hsz
    unfold runDownload
    rw [if_neg (by simp [h1]), if_neg hokc]
    simp only [h3]
    have hsize : ¬(env.offset + (chunkPhase env plan).2.1.length
        ≠ plan.payload_size) := by
      rw [h6, hlen, hsz]
      omega
    have hhash : ¬(omahaHashOfBytes (chunkPhase env plan).2.1
        ≠ plan.payload_hash) := by
      rw [hfile, h8]
      simp [omahaHashOfBytes]
    rw [if_neg (by simp [h4]), if_neg hsize, if_neg hhash]
  · intro hsz hbig
    unfold runDownload
    rw [if_neg (by simp [h1]), if_neg hokc]
    simp only [h3]
    have hsize : env.offset + (chunkPhase env plan).2.1.length
        ≠ plan.payload_size := by
      rw [h6, hlen, hsz]
      omega
    rw [if_neg (by simp [h4]), if_pos hsize]

/-- Witness for C10 at the S1 run: plan size 3 = full payload length. -/
theorem c10_resume_size_check_witness :
    (s1Plan.payload_size = s1Env.data.length →
      (runDownload s1Env s1Plan).code = ActionExitCode.success)
    ∧ (s1Plan.payload_size = s1Env.data.length - 1 →
        2 ≤ s1Env.data.length →
      (runDownload s1Env s1Plan).code
        = ActionExitCode.downloadSizeMismatch) :=
  c10_resume_size_check s1Env s1Plan (by decide) (by decide) (by decide)
    (by decide) (by decide) (by decide) (by decide) (by decide)
